import Mathlib

/-!
Verification of the bacalhau compute-node shard state machine
(`pkg/computenode` shard FSM and manager) and the docker executor's
result-writing phase, as a shallow embedding in Lean 4.

Conventions of the embedding:
* Go channel receives in waiting states consume a list of
  `shardStateRequest` values; an exhausted list models a blocked FSM.
* Side-effecting outbound calls (`BidOnJob`, `RunShard`,
  `ShardExecutionFinished`, `PublishShard`, `ShardError`) take their
  results from an `Env` oracle (each call happens at most once per FSM
  life, so one result per call suffices) and are recorded in a trace.
* A Go run-time panic that the source does not recover is modelled as
  `Option.none`; a recovered panic leaves state unchanged.
-/

namespace Bacalhau

/-- The shard state machine actions (`shardStateAction`, iota-numbered). -/
inductive ShardStateAction
  | actionBid
  | actionRejected
  | actionFail
  | actionRun
  | actionPublish
deriving DecidableEq, Repr

/-- The iota value of each action constant. -/
def shardStateActionIndex : ShardStateAction → Nat
  | .actionBid => 0
  | .actionRejected => 1
  | .actionFail => 2
  | .actionRun => 3
  | .actionPublish => 4

/-- The array literal in `shardStateAction.String`: it has only four
entries even though there are five action constants. -/
def shardStateActionNames : List String :=
  ["ActionBid", "ActionRejected", "ActionFail", "ActionRun"]

/-- `shardStateAction.String` indexes the four-element array with the
action's iota value; `none` models the index-out-of-range panic Go
raises when the index is past the end of the array. -/
def shardStateActionString (a : ShardStateAction) : Option String :=
  shardStateActionNames.get? (shardStateActionIndex a)

/-- The shard FSM states (`shardStateType`, iota-numbered). -/
inductive ShardStateType
  | shardInitialState
  | shardEnqueued
  | shardBidding
  | shardRunning
  | shardPublishingToVerifier
  | shardVerifyingResults
  | shardPublishingToRequester
  | shardError
  | shardCompleted
deriving DecidableEq, Repr

/-- A request sent on the FSM's inbound channel (`shardStateRequest`). -/
structure ShardStateRequest where
  action : ShardStateAction
  failureReason : String
deriving DecidableEq, Repr

/-- The mutable fields of `shardStateMachine` that the state functions
read and write. -/
structure ShardStateMachine where
  currentState : ShardStateType
  previousState : ShardStateType
  resultProposal : List Nat
  bidSent : Bool
  errorMsg : String
deriving DecidableEq, Repr

/-- The zero-valued machine produced by `newStateMachine` (the Go zero
value of `shardStateType` is `shardInitialState`). -/
def initialMachine : ShardStateMachine :=
  { currentState := .shardInitialState
    previousState := .shardInitialState
    resultProposal := []
    bidSent := false
    errorMsg := "" }

/-- `transitionedTo`: record the new state, remembering the previous one. -/
def transitionedTo (m : ShardStateMachine) (s : ShardStateType) : ShardStateMachine :=
  { m with previousState := m.currentState, currentState := s }

/-- One outbound call made by the FSM, with the success of the call where
the FSM branches on it. -/
inductive OutboundCall
  | bidOnJob (ok : Bool)
  | shardExecutionFinished (proposal : List Nat) (ok : Bool)
  | publishShard (ok : Bool)
  | shardError
deriving DecidableEq, Repr

/-- Results of the outbound calls, as seen by this FSM. Each call site
fires at most once per FSM life, so one result per call suffices.
`none` / `Except.ok` model a nil Go error. -/
structure Env where
  bidOnJobErr : Option String
  runShardResult : Except String (List Nat)
  shardExecutionFinishedErr : Option String
  publishShardErr : Option String
  shardErrorErr : Option String
deriving Repr

/-- Result of running a chain of driver states: states entered (via
`transitionedTo`), outbound calls made, the machine afterwards, and
whether the chain paused at the waiting state `verifyingResultsState`
(`paused = true`) or the `Run` loop returned (`paused = false`). -/
structure DriveResult where
  states : List ShardStateType
  calls : List OutboundCall
  machine : ShardStateMachine
  paused : Bool
deriving DecidableEq, Repr

/-- `completedState`: record the terminal state and return nil. -/
def completedStateFn (m : ShardStateMachine) : DriveResult :=
  { states := [.shardCompleted]
    calls := []
    machine := transitionedTo m .shardCompleted
    paused := false }

/-- `errorState`: log, emit `ShardError` outbound iff `bidSent` (a
failure of that call is only logged), then go to `completedState`. -/
def errorStateFn (env : Env) (m : ShardStateMachine) : DriveResult :=
  let m1 := transitionedTo m .shardError
  -- the result of the ShardError call itself is only logged:
  let _ := env.shardErrorErr
  let errCalls : List OutboundCall := if m1.bidSent then [.shardError] else []
  let c := completedStateFn m1
  { states := .shardError :: c.states
    calls := errCalls ++ c.calls
    machine := c.machine
    paused := false }

/-- `publishingToRequesterState`: call `PublishShard`; on error go to
`errorState`, else `completedState`. -/
def publishingToRequesterStateFn (env : Env) (m : ShardStateMachine) : DriveResult :=
  let m1 := transitionedTo m .shardPublishingToRequester
  match env.publishShardErr with
  | none =>
    let c := completedStateFn m1
    { states := .shardPublishingToRequester :: c.states
      calls := .publishShard true :: c.calls
      machine := c.machine
      paused := false }
  | some e =>
    let r := errorStateFn env { m1 with errorMsg := e }
    { states := .shardPublishingToRequester :: r.states
      calls := .publishShard false :: r.calls
      machine := r.machine
      paused := false }

/-- `publishingToVerifierState`: call `ShardExecutionFinished` with the
result proposal; on error go to `errorState`, else enter the waiting
state `verifyingResultsState` (recording its transition) and pause. -/
def publishingToVerifierStateFn (env : Env) (m : ShardStateMachine) : DriveResult :=
  let m1 := transitionedTo m .shardPublishingToVerifier
  match env.shardExecutionFinishedErr with
  | none =>
    let m2 := transitionedTo m1 .shardVerifyingResults
    { states := [.shardPublishingToVerifier, .shardVerifyingResults]
      calls := [.shardExecutionFinished m1.resultProposal true]
      machine := m2
      paused := true }
  | some e =>
    let r := errorStateFn env { m1 with errorMsg := e }
    { states := .shardPublishingToVerifier :: r.states
      calls := .shardExecutionFinished m1.resultProposal false :: r.calls
      machine := r.machine
      paused := false }

/-- `runningState`: call `RunShard`; on success store the proposal and
go to `publishingToVerifierState`, else go to `errorState`. -/
def runningStateFn (env : Env) (m : ShardStateMachine) : DriveResult :=
  let m1 := transitionedTo m .shardRunning
  match env.runShardResult with
  | .ok proposal =>
    let r := publishingToVerifierStateFn env { m1 with resultProposal := proposal }
    { states := .shardRunning :: r.states
      calls := r.calls
      machine := r.machine
      paused := r.paused }
  | .error e =>
    let r := errorStateFn env { m1 with errorMsg := e }
    { states := .shardRunning :: r.states
      calls := r.calls
      machine := r.machine
      paused := false }

/-- Result of a full (partial) run of the FSM driver: states entered in
order, outbound calls in order, the final machine, and whether `Run`
returned (and hence closed the inbound channel). `finished = false`
means the FSM is blocked in a waiting state with no more requests. -/
structure RunResult where
  states : List ShardStateType
  calls : List OutboundCall
  machine : ShardStateMachine
  finished : Bool
deriving DecidableEq, Repr

/-- The receive loop of `verifyingResultsState` (entry into the state is
recorded by `publishingToVerifierStateFn`): `Publish` proceeds to
`publishingToRequesterState`, `Fail` to `errorState`, anything else is
ignored with a warning. -/
def verifyingLoop (env : Env) (m : ShardStateMachine) :
    List ShardStateRequest → RunResult
  | [] => { states := [], calls := [], machine := m, finished := false }
  | r :: rest =>
    match r.action with
    | .actionPublish =>
      let d := publishingToRequesterStateFn env m
      { states := d.states, calls := d.calls, machine := d.machine, finished := true }
    | .actionFail =>
      let d := errorStateFn env { m with errorMsg := r.failureReason }
      { states := d.states, calls := d.calls, machine := d.machine, finished := true }
    | _ => verifyingLoop env m rest

/-- The receive loop of `biddingState` (entry recorded by the caller):
`Run` proceeds to `runningState` (and, if the driver chain pauses at
`verifyingResultsState`, continues with its loop), `Rejected` goes
straight to `completedState`, `Fail` to `errorState`; anything else is
ignored with a warning. -/
def biddingLoop (env : Env) (m : ShardStateMachine) :
    List ShardStateRequest → RunResult
  | [] => { states := [], calls := [], machine := m, finished := false }
  | r :: rest =>
    match r.action with
    | .actionRun =>
      let d := runningStateFn env m
      if d.paused then
        let t := verifyingLoop env d.machine rest
        { states := d.states ++ t.states
          calls := d.calls ++ t.calls
          machine := t.machine
          finished := t.finished }
      else
        { states := d.states, calls := d.calls, machine := d.machine, finished := true }
    | .actionRejected =>
      let d := completedStateFn m
      { states := d.states, calls := d.calls, machine := d.machine, finished := true }
    | .actionFail =>
      let d := errorStateFn env { m with errorMsg := r.failureReason }
      { states := d.states, calls := d.calls, machine := d.machine, finished := true }
    | _ => biddingLoop env m rest

/-- The receive loop of `enqueuedState` (entry recorded by `run`): `Bid`
calls `BidOnJob`; on success it sets `bidSent := true` and enters
`biddingState` (recording its transition), on failure it goes to
`errorState`. `Fail` goes to `errorState`; anything else is ignored. -/
def enqueuedLoop (env : Env) (m : ShardStateMachine) :
    List ShardStateRequest → RunResult
  | [] => { states := [], calls := [], machine := m, finished := false }
  | r :: rest =>
    match r.action with
    | .actionBid =>
      match env.bidOnJobErr with
      | none =>
        let m2 := transitionedTo { m with bidSent := true } .shardBidding
        let t := biddingLoop env m2 rest
        { states := .shardBidding :: t.states
          calls := .bidOnJob true :: t.calls
          machine := t.machine
          finished := t.finished }
      | some e =>
        let d := errorStateFn env { m with errorMsg := e }
        { states := d.states
          calls := .bidOnJob false :: d.calls
          machine := d.machine
          finished := true }
    | .actionFail =>
      let d := errorStateFn env { m with errorMsg := r.failureReason }
      { states := d.states, calls := d.calls, machine := d.machine, finished := true }
    | _ => enqueuedLoop env m rest

/-- `shardStateMachine.Run`: starting from the zero-valued machine, run
state functions from `enqueuedState` until one returns nil, consuming
inbound requests from `reqs`; when the loop ends the inbound channel is
closed (`finished = true`). -/
def run (env : Env) (reqs : List ShardStateRequest) : RunResult :=
  let m1 := transitionedTo initialMachine .shardEnqueued
  let t := enqueuedLoop env m1 reqs
  { states := .shardEnqueued :: t.states
    calls := t.calls
    machine := t.machine
    finished := t.finished }

/-! ## Shard state machine manager (`shardStateMachineManager`) -/

/-- `model.ResourceUsageData`: the resource requirements quadruple. -/
structure ResourceUsageData where
  cpu : Nat
  memory : Nat
  disk : Nat
  gpu : Nat
deriving DecidableEq, Repr

/-- `capacitymanager.CapacityManagerItem`: the shard (by its flat ID)
together with its requirements. -/
structure CapacityManagerItem where
  shardID : String
  requirements : ResourceUsageData
deriving DecidableEq, Repr

/-- The fields of one managed `shardStateMachine` that the manager
reads: the shard's flat ID, the current state, and the capacity item. -/
structure ManagedFsm where
  id : String
  currentState : ShardStateType
  capacity : CapacityManagerItem
deriving DecidableEq, Repr

/-- The manager's two collections: the `shardStates` map (as an
association list keyed by flat ID) and the creation-ordered
`shardStatesList`. -/
structure ManagerState where
  shardStates : List (String × ManagedFsm)
  shardStatesList : List ManagedFsm
deriving DecidableEq, Repr

/-- The empty manager built by `NewShardComputeStateMachineManager`. -/
def newManager : ManagerState :=
  { shardStates := [], shardStatesList := [] }

/-- `newStateMachine`: a fresh machine in `shardInitialState`, carrying
its capacity item. -/
def newManagedStateMachine (shardID : String) (requirements : ResourceUsageData) :
    ManagedFsm :=
  { id := shardID
    currentState := .shardInitialState
    capacity := { shardID := shardID, requirements := requirements } }

/-- `StartShardStateIfNecessery`: under the lock, if the shard ID is not
in the map, create a machine, launch its driver goroutine (the returned
`Bool` records whether one was launched), and insert it in the map and
at the end of the list; otherwise do nothing. -/
def startShardStateIfNecessery (m : ManagerState) (shardID : String)
    (requirements : ResourceUsageData) : ManagerState × Bool :=
  match m.shardStates.lookup shardID with
  | some _ => (m, false)
  | none =>
    let fsm := newManagedStateMachine shardID requirements
    ({ shardStates := (shardID, fsm) :: m.shardStates
       shardStatesList := m.shardStatesList ++ [fsm] }, true)

/-- `StartShardStateIfNecessery` applied `n` times with the same shard,
returning the final manager and how many driver goroutines were
launched. -/
def startShardStateTimes : Nat → ManagerState → String → ResourceUsageData →
    ManagerState × Nat
  | 0, m, _, _ => (m, 0)
  | n + 1, m, shardID, requirements =>
    let p := startShardStateIfNecessery m shardID requirements
    let q := startShardStateTimes n p.1 shardID requirements
    (q.1, (if p.2 then 1 else 0) + q.2)

/-- The loop body of `cleanupCompleted`: walk the list from the front;
delete each completed machine from the map; stop at the first
non-completed machine, keeping the list from there on. -/
def cleanupLoop : List ManagedFsm → List (String × ManagedFsm) →
    List ManagedFsm × List (String × ManagedFsm)
  | [], mp => ([], mp)
  | i :: rest, mp =>
    if i.currentState = .shardCompleted then
      cleanupLoop rest (mp.eraseP (fun p => p.1 == i.id))
    else
      (i :: rest, mp)

/-- `cleanupCompleted`: reap the completed prefix of the ordered list,
removing those machines from the map as well. -/
def cleanupCompleted (m : ManagerState) : ManagerState :=
  let p := cleanupLoop m.shardStatesList m.shardStates
  { shardStates := p.2, shardStatesList := p.1 }

/-- `GetActive`: after reaping, the machines whose current state is
`Bidding` or `Running`, in list order (returned beside the updated
manager, since `cleanupCompleted` mutates it). -/
def getActive (m : ManagerState) : ManagerState × List ManagedFsm :=
  let m1 := cleanupCompleted m
  (m1, m1.shardStatesList.filter
    (fun i => i.currentState = .shardBidding ∨ i.currentState = .shardRunning))

/-- `GetEnqueued`: after reaping, the machines whose current state is
`Enqueued`, in list order. -/
def getEnqueued (m : ManagerState) : ManagerState × List ManagedFsm :=
  let m1 := cleanupCompleted m
  (m1, m1.shardStatesList.filter (fun i => i.currentState = .shardEnqueued))

/-- `ActiveIterator`: the capacity items the handler is applied to, in
order (one per machine returned by `GetActive`). -/
def activeIteratorVisits (m : ManagerState) : List CapacityManagerItem :=
  ((getActive m).2).map (fun i => i.capacity)

/-! ## `sendRequest` and the closed channel -/

/-- Outcome of a Go expression that may panic. -/
inductive PanicOr (α : Type)
  | ok (a : α)
  | panicked
deriving DecidableEq, Repr

/-- A send on the FSM's inbound channel: panics when the channel is
already closed, otherwise enqueues the request. -/
def channelSend (closed : Bool) (pending : List ShardStateRequest)
    (r : ShardStateRequest) : PanicOr (List ShardStateRequest) :=
  if closed then .panicked else .ok (pending ++ [r])

/-- `sendRequest`: perform the channel send under a `recover`; a panic
from a closed channel is logged as a warning and swallowed, leaving the
pending requests unchanged. The second component records whether a
panic escaped to the caller (it never does). -/
def sendRequest (closed : Bool) (pending : List ShardStateRequest)
    (r : ShardStateRequest) : List ShardStateRequest × Bool :=
  match channelSend closed pending r with
  | .ok p => (p, false)
  | .panicked => (pending, false)

/-! ## Docker executor: `RunShard` result phase
(`pkg/executor/docker/executor.go`, container wait, log capture and
result-file writes) -/

/-- Modelled from the spec: the permission constants of
`pkg/storage/util` (absent from the sources), "Permissions:
owner-read/write, group+other read" — `OS_ALL_R` is read for user,
group and other; `OS_USER_RW` is read/write for the owner. -/
def OS_ALL_R : Nat := 0o444

/-- Modelled from the spec: owner read/write permission bits of
`pkg/storage/util` (absent from the sources). -/
def OS_USER_RW : Nat := 0o600

/-- The permission argument of the three `os.WriteFile` calls in
`RunShard`: `util.OS_ALL_R | util.OS_USER_RW`. -/
def resultFilePerm : Nat := Nat.lor OS_ALL_R OS_USER_RW

/-- One `os.WriteFile` performed by `RunShard`. -/
structure FileWrite where
  path : String
  contents : String
  perm : Nat
deriving DecidableEq, Repr

/-- The external results consumed by the tail of `RunShard`: which
branch of the `select` on `ContainerWait` fired, the values it carried,
the outcome of `docker logs`, and the error of each `os.WriteFile`. -/
structure RunShardEffects where
  waitFromErrCh : Bool
  errChValue : Option String
  statusCode : Int
  statusError : Option String
  logsResult : Except String (String × String)
  exitCodeWriteErr : Option String
  stdoutWriteErr : Option String
  stderrWriteErr : Option String
deriving Repr

/-- The tail of `Executor.RunShard` after the container has started:
wait for the container, derive `containerError` and the exit status
(a non-zero exit status becomes an error even when the runtime did not
fail), capture the logs, then write `exitCode`, `stdout` and `stderr`
under the results directory, returning early on any logs or write
failure. Returns the files successfully written, in order, and the
function's returned error. -/
def runShardResultPhase (jobResultsDir : String) (io_ : RunShardEffects) :
    List FileWrite × Option String :=
  let containerError0 : Option String :=
    if io_.waitFromErrCh then io_.errChValue else io_.statusError
  let containerExitStatusCode : Int :=
    if io_.waitFromErrCh then 0 else io_.statusCode
  let containerError : Option String :=
    if containerExitStatusCode ≠ 0 then
      match containerError0 with
      | none => some ("exit code was not zero: " ++ toString containerExitStatusCode)
      | some e => some e
    else containerError0
  match io_.logsResult with
  | .error e => ([], some ("failed to get logs: " ++ e))
  | .ok logs =>
    let exitFile : FileWrite :=
      { path := jobResultsDir ++ "/exitCode"
        contents := toString containerExitStatusCode
        perm := resultFilePerm }
    match io_.exitCodeWriteErr with
    | some e => ([], some ("could not write results to exitCode: " ++ e))
    | none =>
      let stdoutFile : FileWrite :=
        { path := jobResultsDir ++ "/stdout", contents := logs.1, perm := resultFilePerm }
      match io_.stdoutWriteErr with
      | some e => ([exitFile], some ("could not write results to stdout: " ++ e))
      | none =>
        let stderrFile : FileWrite :=
          { path := jobResultsDir ++ "/stderr", contents := logs.2, perm := resultFilePerm }
        match io_.stderrWriteErr with
        | some e => ([exitFile, stdoutFile], some ("could not write results to stderr: " ++ e))
        | none => ([exitFile, stdoutFile, stderrFile], containerError)

/-- Modelled from the spec: `ComputeNode.RunShard` (absent from the
sources) invokes the executor and, per the executor interface contract,
propagates its error; on success the verifier's proposal is returned. -/
def nodeRunShard (executorErr : Option String) (proposal : List Nat) :
    Except String (List Nat) :=
  match executorErr with
  | some e => .error e
  | none => .ok proposal

/-! ## Concrete inputs used by scenario theorems -/

/-- The request sent by `Bid`. -/
def bidReq : ShardStateRequest := { action := .actionBid, failureReason := "" }

/-- The request sent by `Execute`. -/
def runReq : ShardStateRequest := { action := .actionRun, failureReason := "" }

/-- The request sent by `Publish`. -/
def publishReq : ShardStateRequest := { action := .actionPublish, failureReason := "" }

/-- The request sent by `BidRejected`. -/
def rejectedReq : ShardStateRequest := { action := .actionRejected, failureReason := "" }

/-- The request sent by `Fail`. -/
def failReq (reason : String) : ShardStateRequest :=
  { action := .actionFail, failureReason := reason }

/-- An environment in which every outbound call succeeds and the run
produces the proposal `[0x01]`. -/
def happyEnv : Env :=
  { bidOnJobErr := none
    runShardResult := .ok [1]
    shardExecutionFinishedErr := none
    publishShardErr := none
    shardErrorErr := none }

end Bacalhau

namespace Bacalhau

/-- C7: on the happy path (actions `Bid`, `Run`, `Publish` in order, all
outbound calls succeeding, proposal `[0x01]`), the FSM traverses exactly
Enqueued → Bidding → Running → PublishingToVerifier → VerifyingResults →
PublishingToRequester → Completed, calling `bidOnJob` once,
`shardExecutionFinished` once with the proposal, `publishShard` once and
`shardError` zero times. -/
theorem c7_happy_path_trace :
    run happyEnv [bidReq, runReq, publishReq] =
      { states := [.shardEnqueued, .shardBidding, .shardRunning,
                   .shardPublishingToVerifier, .shardVerifyingResults,
                   .shardPublishingToRequester, .shardCompleted]
        calls := [.bidOnJob true, .shardExecutionFinished [1] true, .publishShard true]
        machine := { currentState := .shardCompleted
                     previousState := .shardPublishingToRequester
                     resultProposal := [1]
                     bidSent := true
                     errorMsg := "" }
        finished := true } := by
  rfl

/-- C10: `shardStateAction.String` indexes a four-element name array
with the action's iota value, so for `actionPublish` (iota 4) the
lookup is out of range — `none`, modelling the Go index-out-of-range
panic — while the other four actions do get names. -/
theorem c10_action_string_out_of_range :
    shardStateActionString .actionPublish = none ∧
    shardStateActionIndex .actionPublish = 4 ∧
    shardStateActionNames.length = 4 ∧
    shardStateActionString .actionBid = some "ActionBid" ∧
    shardStateActionString .actionRejected = some "ActionRejected" ∧
    shardStateActionString .actionFail = some "ActionFail" ∧
    shardStateActionString .actionRun = some "ActionRun" :=
  ⟨rfl, rfl, rfl, rfl, rfl, rfl, rfl⟩

/-- C3: on entering the Error state the FSM emits exactly one outbound
`ShardError` iff `bidSent` is true (none when `bidSent` is false), and
unconditionally transitions to Completed. -/
theorem c3_error_state_shardError_iff_bidSent (env : Env) (m : ShardStateMachine) :
    (errorStateFn env m).calls = (if m.bidSent then [OutboundCall.shardError] else []) ∧
    (errorStateFn env m).calls.count OutboundCall.shardError =
      (if m.bidSent then 1 else 0) ∧
    (errorStateFn env m).machine.currentState = .shardCompleted ∧
    (errorStateFn env m).states = [.shardError, .shardCompleted] ∧
    (errorStateFn env m).paused = false := by
  cases h : m.bidSent <;>
    simp [errorStateFn, completedStateFn, transitionedTo, h]

end Bacalhau

namespace Bacalhau

/-! ### Structural lemmas about the driver chains and receive loops -/

/-- A driver chain from `errorState` ends with the machine Completed. -/
theorem errorStateFn_machine_completed (env : Env) (m : ShardStateMachine) :
    (errorStateFn env m).machine.currentState = .shardCompleted := rfl

/-- A driver chain from `publishingToRequesterState` ends Completed. -/
theorem publishingToRequesterStateFn_machine_completed (env : Env) (m : ShardStateMachine) :
    (publishingToRequesterStateFn env m).machine.currentState = .shardCompleted := by
  cases h : env.publishShardErr <;>
    simp [publishingToRequesterStateFn, h, errorStateFn, completedStateFn, transitionedTo]

/-- A driver chain from `publishingToVerifierState` that does not pause
at `verifyingResultsState` ends Completed. -/
theorem publishingToVerifierStateFn_machine_completed (env : Env) (m : ShardStateMachine)
    (h : (publishingToVerifierStateFn env m).paused = false) :
    (publishingToVerifierStateFn env m).machine.currentState = .shardCompleted := by
  cases he : env.shardExecutionFinishedErr with
  | none => simp [publishingToVerifierStateFn, he] at h
  | some e =>
    simp [publishingToVerifierStateFn, he, errorStateFn, completedStateFn, transitionedTo]

/-- A driver chain from `runningState` that does not pause at
`verifyingResultsState` ends Completed. -/
theorem runningStateFn_machine_completed (env : Env) (m : ShardStateMachine)
    (h : (runningStateFn env m).paused = false) :
    (runningStateFn env m).machine.currentState = .shardCompleted := by
  cases hr : env.runShardResult with
  | ok proposal =>
    have hp : (publishingToVerifierStateFn env
        { transitionedTo m .shardRunning with resultProposal := proposal }).paused = false := by
      simpa [runningStateFn, hr] using h
    simpa [runningStateFn, hr] using
      publishingToVerifierStateFn_machine_completed env _ hp
  | error e =>
    simp [runningStateFn, hr, errorStateFn, completedStateFn, transitionedTo]

/-- A finished `verifyingResultsState` receive loop leaves the machine
Completed. -/
theorem verifyingLoop_finished_completed (env : Env) :
    ∀ (reqs : List ShardStateRequest) (m : ShardStateMachine),
      (verifyingLoop env m reqs).finished = true →
      (verifyingLoop env m reqs).machine.currentState = .shardCompleted := by
  intro reqs
  induction reqs with
  | nil => intro m h; simp [verifyingLoop] at h
  | cons r rest ih =>
    intro m h
    cases hr : r.action <;>
      simp only [verifyingLoop, hr] at h ⊢
    · exact ih m h
    · exact ih m h
    · exact errorStateFn_machine_completed env _
    · exact ih m h
    · exact publishingToRequesterStateFn_machine_completed env m

/-- A finished `biddingState` receive loop leaves the machine Completed. -/
theorem biddingLoop_finished_completed (env : Env) :
    ∀ (reqs : List ShardStateRequest) (m : ShardStateMachine),
      (biddingLoop env m reqs).finished = true →
      (biddingLoop env m reqs).machine.currentState = .shardCompleted := by
  intro reqs
  induction reqs with
  | nil => intro m h; simp [biddingLoop] at h
  | cons r rest ih =>
    intro m h
    cases hr : r.action <;>
      simp only [biddingLoop, hr] at h ⊢
    · exact ih m h
    · simp [completedStateFn, transitionedTo]
    · exact errorStateFn_machine_completed env _
    · cases hp : (runningStateFn env m).paused with
      | true =>
        simp only [hp, if_true] at h ⊢
        exact verifyingLoop_finished_completed env rest _ h
      | false =>
        simp only [hp, if_false] at h ⊢
        exact runningStateFn_machine_completed env m hp
    · exact ih m h

/-- A finished `enqueuedState` receive loop leaves the machine Completed. -/
theorem enqueuedLoop_finished_completed (env : Env) :
    ∀ (reqs : List ShardStateRequest) (m : ShardStateMachine),
      (enqueuedLoop env m reqs).finished = true →
      (enqueuedLoop env m reqs).machine.currentState = .shardCompleted := by
  intro reqs
  induction reqs with
  | nil => intro m h; simp [enqueuedLoop] at h
  | cons r rest ih =>
    intro m h
    cases hr : r.action <;>
      simp only [enqueuedLoop, hr] at h ⊢
    · cases hb : env.bidOnJobErr with
      | none =>
        simp only [hb] at h ⊢
        exact biddingLoop_finished_completed env rest _ h
      | some e =>
        simp only [hb]
        exact errorStateFn_machine_completed env _
    · exact ih m h
    · exact errorStateFn_machine_completed env _
    · exact ih m h
    · exact ih m h

/-- Extending the request list of a finished `verifyingResultsState`
loop changes nothing. -/
theorem verifyingLoop_append_of_finished (env : Env) (extra : List ShardStateRequest) :
    ∀ (reqs : List ShardStateRequest) (m : ShardStateMachine),
      (verifyingLoop env m reqs).finished = true →
      verifyingLoop env m (reqs ++ extra) = verifyingLoop env m reqs := by
  intro reqs
  induction reqs with
  | nil => intro m h; simp [verifyingLoop] at h
  | cons r rest ih =>
    intro m h
    cases hr : r.action <;>
      simp only [List.cons_append, List.append_eq, verifyingLoop, hr] at h ⊢ <;>
      exact ih m h

/-- Extending the request list of a finished `biddingState` loop
changes nothing. -/
theorem biddingLoop_append_of_finished (env : Env) (extra : List ShardStateRequest) :
    ∀ (reqs : List ShardStateRequest) (m : ShardStateMachine),
      (biddingLoop env m reqs).finished = true →
      biddingLoop env m (reqs ++ extra) = biddingLoop env m reqs := by
  intro reqs
  induction reqs with
  | nil => intro m h; simp [biddingLoop] at h
  | cons r rest ih =>
    intro m h
    cases hr : r.action <;>
      simp only [List.cons_append, List.append_eq, biddingLoop, hr] at h ⊢
    · exact ih m h
    · cases hp : (runningStateFn env m).paused with
      | true =>
        simp only [hp] at h ⊢
        simp only [if_true] at h ⊢
        rw [verifyingLoop_append_of_finished env extra rest _ h]
      | false =>
        simp [hp]
    · exact ih m h

/-- Extending the request list of a finished `enqueuedState` loop
changes nothing. -/
theorem enqueuedLoop_append_of_finished (env : Env) (extra : List ShardStateRequest) :
    ∀ (reqs : List ShardStateRequest) (m : ShardStateMachine),
      (enqueuedLoop env m reqs).finished = true →
      enqueuedLoop env m (reqs ++ extra) = enqueuedLoop env m reqs := by
  intro reqs
  induction reqs with
  | nil => intro m h; simp [enqueuedLoop] at h
  | cons r rest ih =>
    intro m h
    cases hr : r.action <;>
      simp only [List.cons_append, List.append_eq, enqueuedLoop, hr] at h ⊢
    · cases hb : env.bidOnJobErr with
      | none =>
        simp only [hb] at h ⊢
        rw [biddingLoop_append_of_finished env extra rest _ h]
      | some e => simp [hb]
    · exact ih m h
    · exact ih m h
    · exact ih m h

/-- How many of the three terminal outcomes a run shows: a successful
`PublishShard`, an emitted `ShardError`, or completion directly from the
Bidding state (the machine's `previousState` is Bidding exactly when the
bid was rejected). -/
def outcomeCount (r : RunResult) : Nat :=
  (if OutboundCall.publishShard true ∈ r.calls then 1 else 0) +
  (if OutboundCall.shardError ∈ r.calls then 1 else 0) +
  (if r.machine.previousState = ShardStateType.shardBidding then 1 else 0)

/-- After a bid was sent, a finished `verifyingResultsState` loop shows
exactly one terminal outcome. -/
theorem verifyingLoop_outcomeCount (env : Env) :
    ∀ (reqs : List ShardStateRequest) (m : ShardStateMachine),
      m.bidSent = true →
      (verifyingLoop env m reqs).finished = true →
      outcomeCount (verifyingLoop env m reqs) = 1 := by
  intro reqs
  induction reqs with
  | nil => intro m hb h; simp [verifyingLoop] at h
  | cons r rest ih =>
    intro m hb h
    cases hr : r.action <;> simp only [verifyingLoop, hr] at h ⊢
    · exact ih m hb h
    · exact ih m hb h
    · simp [outcomeCount, errorStateFn, completedStateFn, transitionedTo, hb]
    · exact ih m hb h
    · cases hp : env.publishShardErr <;>
        simp [outcomeCount, publishingToRequesterStateFn, hp, errorStateFn,
          completedStateFn, transitionedTo, hb]

/-- After a bid was sent, a finished `biddingState` loop shows exactly
one terminal outcome, and a successful `PublishShard` is preceded by a
successful `ShardExecutionFinished`. -/
theorem biddingLoop_outcomeCount (env : Env) :
    ∀ (reqs : List ShardStateRequest) (m : ShardStateMachine),
      m.bidSent = true → m.currentState = .shardBidding →
      (biddingLoop env m reqs).finished = true →
      outcomeCount (biddingLoop env m reqs) = 1 ∧
      (OutboundCall.publishShard true ∈ (biddingLoop env m reqs).calls →
        ∃ p, OutboundCall.shardExecutionFinished p true ∈ (biddingLoop env m reqs).calls) := by
  intro reqs
  induction reqs with
  | nil => intro m hb hc h; simp [biddingLoop] at h
  | cons r rest ih =>
    intro m hb hc h
    cases hr : r.action <;> simp only [biddingLoop, hr] at h ⊢
    · exact ih m hb hc h
    · simp [outcomeCount, completedStateFn, transitionedTo, hc]
    · simp [outcomeCount, errorStateFn, completedStateFn, transitionedTo, hb]
    · cases hrun : env.runShardResult with
      | error e =>
        have hp : (runningStateFn env m).paused = false := by
          simp [runningStateFn, hrun]
        simp only [hp] at h ⊢
        simp only [Bool.false_eq_true, if_false] at h ⊢
        simp [outcomeCount, runningStateFn, hrun, errorStateFn, completedStateFn,
          transitionedTo, hb]
      | ok p =>
        cases hef : env.shardExecutionFinishedErr with
        | some e =>
          have hp : (runningStateFn env m).paused = false := by
            simp [runningStateFn, hrun, publishingToVerifierStateFn, hef]
          simp only [hp] at h ⊢
          simp only [Bool.false_eq_true, if_false] at h ⊢
          simp [outcomeCount, runningStateFn, hrun, publishingToVerifierStateFn, hef,
            errorStateFn, completedStateFn, transitionedTo, hb]
        | none =>
          have hp : (runningStateFn env m).paused = true := by
            simp [runningStateFn, hrun, publishingToVerifierStateFn, hef]
          simp only [hp, if_true] at h ⊢
          have hbv : (runningStateFn env m).machine.bidSent = true := by
            simp [runningStateFn, hrun, publishingToVerifierStateFn, hef,
              transitionedTo, hb]
          have hv := verifyingLoop_outcomeCount env rest _ hbv h
          constructor
          · have hcalls : (runningStateFn env m).calls =
                [OutboundCall.shardExecutionFinished p true] := by
              simp [runningStateFn, hrun, publishingToVerifierStateFn, hef,
                transitionedTo]
            simp only [outcomeCount, hcalls] at hv ⊢
            simpa using hv
          · intro _
            refine ⟨p, ?_⟩
            have hcalls : (runningStateFn env m).calls =
                [OutboundCall.shardExecutionFinished p true] := by
              simp [runningStateFn, hrun, publishingToVerifierStateFn, hef,
                transitionedTo]
            simp [hcalls]
    · exact ih m hb hc h

/-- A finished `enqueuedState` loop that ends with `bidSent = true`
shows exactly one terminal outcome, and a successful `PublishShard` is
preceded by a successful `ShardExecutionFinished`. -/
theorem enqueuedLoop_outcomeCount (env : Env) :
    ∀ (reqs : List ShardStateRequest) (m : ShardStateMachine),
      m.bidSent = false →
      (enqueuedLoop env m reqs).finished = true →
      (enqueuedLoop env m reqs).machine.bidSent = true →
      outcomeCount (enqueuedLoop env m reqs) = 1 ∧
      (OutboundCall.publishShard true ∈ (enqueuedLoop env m reqs).calls →
        ∃ p, OutboundCall.shardExecutionFinished p true ∈ (enqueuedLoop env m reqs).calls) := by
  intro reqs
  induction reqs with
  | nil => intro m hb h _; simp [enqueuedLoop] at h
  | cons r rest ih =>
    intro m hb h hend
    cases hr : r.action <;> simp only [enqueuedLoop, hr] at h hend ⊢
    · cases hcall : env.bidOnJobErr with
      | none =>
        simp only [hcall] at h hend ⊢
        have hbt : (transitionedTo { m with bidSent := true } .shardBidding).bidSent
            = true := by simp [transitionedTo]
        have hct : (transitionedTo { m with bidSent := true } .shardBidding).currentState
            = .shardBidding := by simp [transitionedTo]
        have hbl := biddingLoop_outcomeCount env rest _ hbt hct h
        constructor
        · simp only [outcomeCount] at hbl ⊢
          simpa using hbl.1
        · intro hpub
          obtain ⟨p, hp⟩ := hbl.2 (by simpa using hpub)
          exact ⟨p, by simp [hp]⟩
      | some e =>
        simp only [hcall] at hend
        simp [errorStateFn, completedStateFn, transitionedTo, hb] at hend
    · exact ih m hb h hend
    · simp [errorStateFn, completedStateFn, transitionedTo, hb] at hend
    · exact ih m hb h hend
    · exact ih m hb h hend

/-- C2 counterexample: for the FSM whose bid was sent and then rejected,
the run reaches Completed with `bidSent = true` yet neither outbound
outcome occurred — no `publishShard`, no `shardExecutionFinished`, and
no `shardError` — refuting "exactly one of the two, never neither". -/
theorem c2_counterexample_rejected_bid :
    (run happyEnv [bidReq, rejectedReq]).finished = true ∧
    (run happyEnv [bidReq, rejectedReq]).machine.bidSent = true ∧
    (run happyEnv [bidReq, rejectedReq]).machine.currentState = .shardCompleted ∧
    (run happyEnv [bidReq, rejectedReq]).calls = [.bidOnJob true] ∧
    OutboundCall.shardError ∉ (run happyEnv [bidReq, rejectedReq]).calls ∧
    OutboundCall.publishShard true ∉ (run happyEnv [bidReq, rejectedReq]).calls := by
  refine ⟨rfl, rfl, rfl, rfl, ?_, ?_⟩ <;> decide

/-- C2 (amended): every finished run with `bidSent = true` shows exactly
one of three terminal outcomes — a successful `publishShard` (which is
always preceded by a successful `shardExecutionFinished`), an emitted
`shardError`, or a clean termination straight from Bidding after the
peer rejected the bid (in which case neither outbound outcome occurs). -/
theorem c2_amended_exactly_one_outcome (env : Env) (reqs : List ShardStateRequest)
    (hfin : (run env reqs).finished = true)
    (hbid : (run env reqs).machine.bidSent = true) :
    outcomeCount (run env reqs) = 1 ∧
    (OutboundCall.publishShard true ∈ (run env reqs).calls →
      ∃ p, OutboundCall.shardExecutionFinished p true ∈ (run env reqs).calls) := by
  have hb0 : (transitionedTo initialMachine .shardEnqueued).bidSent = false := rfl
  have he := enqueuedLoop_outcomeCount env reqs _ hb0 hfin hbid
  exact ⟨by simpa [outcomeCount, run] using he.1, by simpa [run] using he.2⟩

/-- Witness for C2 (amended): the happy-path run finishes with
`bidSent = true` and exactly one terminal outcome. -/
theorem c2_witness :
    (run happyEnv [bidReq, runReq, publishReq]).finished = true ∧
    (run happyEnv [bidReq, runReq, publishReq]).machine.bidSent = true ∧
    outcomeCount (run happyEnv [bidReq, runReq, publishReq]) = 1 :=
  ⟨rfl, rfl,
   (c2_amended_exactly_one_outcome happyEnv [bidReq, runReq, publishReq] rfl rfl).1⟩

/-- C4: once the FSM has finished `Run` (reaching Completed and closing
its inbound channel), any further actions are no-ops — delivering extra
requests changes no state, no call and no trace — and `sendRequest` on
the closed channel recovers the panic, leaves the channel contents
unchanged and lets no panic escape. -/
theorem c4_completed_fsm_ignores_actions (env : Env)
    (reqs extra pending : List ShardStateRequest) (r : ShardStateRequest)
    (h : (run env reqs).finished = true) :
    run env (reqs ++ extra) = run env reqs ∧
    (run env reqs).machine.currentState = .shardCompleted ∧
    sendRequest true pending r = (pending, false) := by
  refine ⟨?_, ?_, rfl⟩
  · have h1 : (enqueuedLoop env (transitionedTo initialMachine .shardEnqueued) reqs).finished
        = true := h
    simp only [run]
    rw [enqueuedLoop_append_of_finished env extra reqs _ h1]
  · exact enqueuedLoop_finished_completed env reqs _ h

/-- Witness for C4: after the happy-path run finishes, a stale extra
`Publish` leaves the whole run result unchanged. -/
theorem c4_witness :
    (run happyEnv [bidReq, runReq, publishReq]).finished = true ∧
    run happyEnv ([bidReq, runReq, publishReq] ++ [publishReq]) =
      run happyEnv [bidReq, runReq, publishReq] ∧
    sendRequest true [] publishReq = ([], false) :=
  ⟨rfl,
   (c4_completed_fsm_ignores_actions happyEnv [bidReq, runReq, publishReq]
     [publishReq] [] publishReq rfl).1,
   (c4_completed_fsm_ignores_actions happyEnv [bidReq, runReq, publishReq]
     [publishReq] [] publishReq rfl).2.2⟩

/-- A shard ID already in the map makes `StartShardStateIfNecessery` a
no-op that launches nothing. -/
theorem startShard_noop_of_present (m : ManagerState) (shardID : String)
    (req : ResourceUsageData) (h : (m.shardStates.lookup shardID).isSome = true) :
    startShardStateIfNecessery m shardID req = (m, false) := by
  unfold startShardStateIfNecessery
  cases hl : m.shardStates.lookup shardID with
  | some v => rfl
  | none => rw [hl] at h; simp at h

/-- Iterating `StartShardStateIfNecessery` over a shard ID already in
the map changes nothing and launches nothing. -/
theorem startShardTimes_noop_of_present (n : Nat) (m : ManagerState) (shardID : String)
    (req : ResourceUsageData) (h : (m.shardStates.lookup shardID).isSome = true) :
    startShardStateTimes n m shardID req = (m, 0) := by
  induction n with
  | zero => rfl
  | succ k ih =>
    simp [startShardStateTimes, startShard_noop_of_present m shardID req h, ih]

/-- A key absent from the map (lookup `none`) occurs zero times among
the entries. -/
theorem countP_key_eq_zero_of_lookup_none (l : List (String × ManagedFsm)) (k : String)
    (h : l.lookup k = none) : l.countP (fun p => p.1 == k) = 0 := by
  induction l with
  | nil => rfl
  | cons a rest ih =>
    rw [List.lookup_cons] at h
    cases hk : (k == a.1) with
    | true => rw [hk] at h; simp at h
    | false =>
      rw [hk] at h
      have hne : a.1 ≠ k := fun he => by simp [he] at hk
      simp only [List.countP_cons, ih h]
      simp [hne]

/-- C5: `StartShardStateIfNecessery` is idempotent per shard ID — for a
shard not yet known, calling it `n ≥ 1` times launches exactly one
driver goroutine, creates exactly one entry in the `shardStates` map and
exactly one in the ordered list, and every call after the first leaves
the manager unchanged. -/
theorem c5_startShard_idempotent (m : ManagerState) (shardID : String)
    (req : ResourceUsageData) (n : Nat) (hn : 1 ≤ n)
    (hmap : m.shardStates.lookup shardID = none)
    (hlist : m.shardStatesList.countP (fun i => i.id == shardID) = 0) :
    (startShardStateTimes n m shardID req).1 =
      (startShardStateIfNecessery m shardID req).1 ∧
    (startShardStateTimes n m shardID req).2 = 1 ∧
    (startShardStateTimes n m shardID req).1.shardStates.countP
      (fun p => p.1 == shardID) = 1 ∧
    (startShardStateTimes n m shardID req).1.shardStatesList.countP
      (fun i => i.id == shardID) = 1 := by
  obtain ⟨k, rfl⟩ : ∃ k, n = k + 1 := ⟨n - 1, by omega⟩
  have hfirst : startShardStateIfNecessery m shardID req =
      ({ shardStates := (shardID, newManagedStateMachine shardID req) :: m.shardStates
         shardStatesList := m.shardStatesList ++ [newManagedStateMachine shardID req] },
       true) := by
    unfold startShardStateIfNecessery
    rw [hmap]
  have hrest : startShardStateTimes k (startShardStateIfNecessery m shardID req).1
      shardID req = ((startShardStateIfNecessery m shardID req).1, 0) := by
    apply startShardTimes_noop_of_present
    rw [hfirst]
    simp
  rw [hfirst] at hrest
  refine ⟨?_, ?_, ?_, ?_⟩
  · simp [startShardStateTimes, hfirst, hrest]
  · simp [startShardStateTimes, hfirst, hrest]
  · simp [startShardStateTimes, hfirst, hrest, List.countP_cons,
      countP_key_eq_zero_of_lookup_none m.shardStates shardID hmap]
  · have hid : (newManagedStateMachine shardID req).id = shardID := rfl
    simp [startShardStateTimes, hfirst, hrest, List.countP_append, List.countP_cons,
      hlist, hid]

/-- Witness for C5: starting the shard "a" twice on the empty manager
launches exactly one goroutine and leaves one entry in map and list. -/
theorem c5_witness :
    newManager.shardStates.lookup "a" = none ∧
    (startShardStateTimes 2 newManager "a"
      { cpu := 1, memory := 2, disk := 3, gpu := 0 }).2 = 1 ∧
    (startShardStateTimes 2 newManager "a"
      { cpu := 1, memory := 2, disk := 3, gpu := 0 }).1.shardStatesList.countP
      (fun i => i.id == "a") = 1 :=
  ⟨rfl,
   (c5_startShard_idempotent newManager "a" { cpu := 1, memory := 2, disk := 3, gpu := 0 }
     2 (by decide) rfl rfl).2.1,
   (c5_startShard_idempotent newManager "a" { cpu := 1, memory := 2, disk := 3, gpu := 0 }
     2 (by decide) rfl rfl).2.2.2⟩

/-- The reaping loop removes exactly the completed prefix from the list
and erases exactly those machines' keys from the map. -/
theorem cleanupLoop_eq_dropWhile_takeWhile (l : List ManagedFsm)
    (mp : List (String × ManagedFsm)) :
    cleanupLoop l mp =
      (l.dropWhile (fun i => i.currentState == .shardCompleted),
       (l.takeWhile (fun i => i.currentState == .shardCompleted)).foldl
         (fun acc i => acc.eraseP (fun p => p.1 == i.id)) mp) := by
  induction l generalizing mp with
  | nil => rfl
  | cons a rest ih =>
    by_cases h : a.currentState = .shardCompleted <;>
      simp [cleanupLoop, List.dropWhile_cons, List.takeWhile_cons, h, ih]

/-- C6: `cleanupCompleted` removes exactly the maximal completed prefix
of the ordered list, erases exactly those machines from the map, keeps
the remaining list a suffix of the original (preserving relative order),
and leaves a non-completed machine (if any) at the front. -/
theorem c6_cleanup_reaps_completed_prefix (m : ManagerState) :
    (cleanupCompleted m).shardStatesList =
      m.shardStatesList.dropWhile (fun i => i.currentState == .shardCompleted) ∧
    (cleanupCompleted m).shardStates =
      (m.shardStatesList.takeWhile (fun i => i.currentState == .shardCompleted)).foldl
        (fun acc i => acc.eraseP (fun p => p.1 == i.id)) m.shardStates ∧
    (cleanupCompleted m).shardStatesList.IsSuffix m.shardStatesList ∧
    ((cleanupCompleted m).shardStatesList.head?.all
      (fun hd => !(hd.currentState == .shardCompleted))) = true := by
  have hc := cleanupLoop_eq_dropWhile_takeWhile m.shardStatesList m.shardStates
  refine ⟨?_, ?_, ?_, ?_⟩
  · simp [cleanupCompleted, hc]
  · simp [cleanupCompleted, hc]
  · simp only [cleanupCompleted, hc]
    exact List.dropWhile_suffix _
  · simp only [cleanupCompleted, hc]
    cases hh : (m.shardStatesList.dropWhile
        (fun i => i.currentState == .shardCompleted)).head? with
    | none => rfl
    | some hd =>
      have := List.head?_dropWhile_not (fun i => i.currentState == .shardCompleted)
        m.shardStatesList
      rw [hh] at this
      simp only [Option.all_some]
      simpa using this

/-! ### Decimal rendering emits no newline characters -/

/-- `Nat.digitChar` never yields a newline. -/
theorem digitChar_ne_newline (n : Nat) : Nat.digitChar n ≠ '\n' := by
  match n with
  | 0 => decide
  | 1 => decide
  | 2 => decide
  | 3 => decide
  | 4 => decide
  | 5 => decide
  | 6 => decide
  | 7 => decide
  | 8 => decide
  | 9 => decide
  | 10 => decide
  | 11 => decide
  | 12 => decide
  | 13 => decide
  | 14 => decide
  | 15 => decide
  | (k + 16) =>
    unfold Nat.digitChar
    repeat rw [if_neg (by omega)]
    decide

/-- `Nat.toDigitsCore` never inserts a newline. -/
theorem toDigitsCore_ne_newline (b : Nat) :
    ∀ (f n : Nat) (ds : List Char), (∀ c ∈ ds, c ≠ '\n') →
      ∀ c ∈ Nat.toDigitsCore b f n ds, c ≠ '\n' := by
  intro f
  induction f with
  | zero => intro n ds hds c hc; exact hds c hc
  | succ k ih =>
    intro n ds hds c hc
    rw [Nat.toDigitsCore] at hc
    split at hc
    · rcases List.mem_cons.mp hc with h | h
      · subst h; exact digitChar_ne_newline _
      · exact hds c h
    · refine ih _ _ ?_ c hc
      intro d hd
      rcases List.mem_cons.mp hd with h | h
      · subst h; exact digitChar_ne_newline _
      · exact hds d h

/-- The decimal rendering of a natural number has no newline. -/
theorem natRepr_ne_newline (n : Nat) : ∀ c ∈ (Nat.repr n).data, c ≠ '\n' := by
  intro c hc
  have hd : (Nat.repr n).data = Nat.toDigits 10 n := rfl
  rw [hd] at hc
  exact toDigitsCore_ne_newline 10 (n + 1) n [] (by simp) c hc

/-- The decimal rendering of an integer (as produced by `%d`) has no
newline — in particular no trailing newline. -/
theorem intToString_ne_newline (i : Int) : ∀ c ∈ (toString i).data, c ≠ '\n' := by
  cases i with
  | ofNat n =>
    intro c hc
    have hd : toString (Int.ofNat n) = Nat.repr n := rfl
    rw [hd] at hc
    exact natRepr_ne_newline n c hc
  | negSucc n =>
    intro c hc
    have hd : toString (Int.negSucc n) = "-" ++ Nat.repr (n + 1) := rfl
    rw [hd] at hc
    rw [String.data_append] at hc
    rcases List.mem_append.mp hc with h | h
    · simp at h; subst h; decide
    · exact natRepr_ne_newline (n + 1) c h

/-- C9: whenever `RunShard` reaches its final return (logs captured and
all three writes succeeded), the files written are exactly `exitCode`
holding the container's exit status as decimal ASCII with no newline
(hence no trailing newline), and `stdout` / `stderr` holding the raw
captured bytes, each with permission bits `0o644` — owner read/write,
group and other read. -/
theorem c9_result_files (dir : String) (eff : RunShardEffects)
    (stdoutS stderrS : String)
    (hlogs : eff.logsResult = .ok (stdoutS, stderrS))
    (h1 : eff.exitCodeWriteErr = none) (h2 : eff.stdoutWriteErr = none)
    (h3 : eff.stderrWriteErr = none) :
    (runShardResultPhase dir eff).1 =
      [{ path := dir ++ "/exitCode"
         contents := toString (if eff.waitFromErrCh then (0 : Int) else eff.statusCode)
         perm := resultFilePerm },
       { path := dir ++ "/stdout", contents := stdoutS, perm := resultFilePerm },
       { path := dir ++ "/stderr", contents := stderrS, perm := resultFilePerm }] ∧
    resultFilePerm = 0o644 ∧
    (∀ c ∈ (toString (if eff.waitFromErrCh then (0 : Int) else eff.statusCode)).data,
      c ≠ '\n') := by
  refine ⟨?_, by decide, intToString_ne_newline _⟩
  simp [runShardResultPhase, hlogs, h1, h2, h3]

/-- Effects of a fully successful container run exiting 0. -/
def okEffects : RunShardEffects :=
  { waitFromErrCh := false
    errChValue := none
    statusCode := 0
    statusError := none
    logsResult := .ok ("out", "err")
    exitCodeWriteErr := none
    stdoutWriteErr := none
    stderrWriteErr := none }

/-- Witness for C9: the concrete successful run writes the three files
with the documented contents and permissions. -/
theorem c9_witness :
    okEffects.logsResult = .ok ("out", "err") ∧
    (runShardResultPhase "/r" okEffects).1 =
      [{ path := "/r" ++ "/exitCode"
         contents := toString (if okEffects.waitFromErrCh then (0 : Int) else okEffects.statusCode)
         perm := resultFilePerm },
       { path := "/r" ++ "/stdout", contents := "out", perm := resultFilePerm },
       { path := "/r" ++ "/stderr", contents := "err", perm := resultFilePerm }] :=
  ⟨rfl, (c9_result_files "/r" okEffects "out" "err" rfl rfl rfl rfl).1⟩

/-- Effects of a run whose container exits 1 with no runtime failure. -/
def exitOneEffects : RunShardEffects :=
  { waitFromErrCh := false
    errChValue := none
    statusCode := 1
    statusError := none
    logsResult := .ok ("", "")
    exitCodeWriteErr := none
    stdoutWriteErr := none
    stderrWriteErr := none }

/-- The FSM environment produced by that run: outbound calls succeed but
`RunShard`, via the node, reports the executor's non-zero-exit error. -/
def exitOneEnv : Env :=
  { bidOnJobErr := none
    runShardResult := nodeRunShard (runShardResultPhase "/r" exitOneEffects).2 []
    shardExecutionFinishedErr := none
    publishShardErr := none
    shardErrorErr := none }

/-- C8 counterexample: with the container exiting 1 and the runtime not
failing, `RunShard` returns a non-nil error, and the FSM driven by
`Bid`, `Run` never enters `PublishingToVerifier`: it goes Running →
Error → Completed and emits a `ShardError`. -/
theorem c8_counterexample_nonzero_exit :
    (runShardResultPhase "/r" exitOneEffects).2 = some "exit code was not zero: 1" ∧
    (run exitOneEnv [bidReq, runReq]).states =
      [.shardEnqueued, .shardBidding, .shardRunning, .shardError, .shardCompleted] ∧
    ShardStateType.shardPublishingToVerifier ∉ (run exitOneEnv [bidReq, runReq]).states ∧
    (run exitOneEnv [bidReq, runReq]).finished = true ∧
    OutboundCall.shardError ∈ (run exitOneEnv [bidReq, runReq]).calls := by
  refine ⟨rfl, rfl, ?_, rfl, ?_⟩ <;> decide

/-- C8 (amended): when the run succeeds at the runtime level but the
container exits non-zero, `RunShard` still records the exit status in
the `exitCode` file but returns a non-nil error ("exit code was not
zero"), and an FSM whose `RunShard` call errors transitions from Running
to Error (then Completed) — it does not enter `PublishingToVerifier`. -/
theorem c8_amended_nonzero_exit_is_error (dir : String) (eff : RunShardEffects)
    (hwait : eff.waitFromErrCh = false) (hstat : eff.statusError = none)
    (hcode : eff.statusCode ≠ 0)
    (stdoutS stderrS : String) (hlogs : eff.logsResult = .ok (stdoutS, stderrS))
    (h1 : eff.exitCodeWriteErr = none) (h2 : eff.stdoutWriteErr = none)
    (h3 : eff.stderrWriteErr = none) :
    (runShardResultPhase dir eff).2 =
      some ("exit code was not zero: " ++ toString eff.statusCode) ∧
    ({ path := dir ++ "/exitCode", contents := toString eff.statusCode
       perm := resultFilePerm } : FileWrite) ∈ (runShardResultPhase dir eff).1 ∧
    (∀ (env : Env) (m : ShardStateMachine) (e : String),
      env.runShardResult = .error e →
      (runningStateFn env m).states = [.shardRunning, .shardError, .shardCompleted] ∧
      (runningStateFn env m).machine.currentState = .shardCompleted ∧
      (runningStateFn env m).paused = false) := by
  refine ⟨?_, ?_, ?_⟩
  · simp [runShardResultPhase, hwait, hstat, hlogs, h1, h2, h3, hcode]
  · simp [runShardResultPhase, hwait, hstat, hlogs, h1, h2, h3, hcode]
  · intro env m e he
    refine ⟨?_, ?_, ?_⟩ <;>
      simp [runningStateFn, he, errorStateFn, completedStateFn, transitionedTo]

/-- Witness for C8 (amended): the exit-1 run returns the non-zero-exit
error yet writes the exit code, and the concrete FSM fed that error
never pauses for verification. -/
theorem c8_witness :
    exitOneEffects.statusCode ≠ 0 ∧
    (runShardResultPhase "/r" exitOneEffects).2 =
      some ("exit code was not zero: " ++ toString exitOneEffects.statusCode) ∧
    (runningStateFn exitOneEnv initialMachine).states =
      [.shardRunning, .shardError, .shardCompleted] :=
  ⟨by decide,
   (c8_amended_nonzero_exit_is_error "/r" exitOneEffects rfl rfl (by decide) "" ""
     rfl rfl rfl rfl).1,
   ((c8_amended_nonzero_exit_is_error "/r" exitOneEffects rfl rfl (by decide) "" ""
     rfl rfl rfl rfl).2.2 exitOneEnv initialMachine "exit code was not zero: 1" rfl).1⟩

/-- A machine the manager sees in state `PublishingToVerifier`. -/
def pvFsm : ManagedFsm :=
  { id := "s1"
    currentState := .shardPublishingToVerifier
    capacity := { shardID := "s1", requirements := { cpu := 1, memory := 1, disk := 0, gpu := 0 } } }

/-- A manager holding exactly `pvFsm`. -/
def pvManager : ManagerState :=
  { shardStates := [("s1", pvFsm)], shardStatesList := [pvFsm] }

/-- C1 counterexample: a live FSM in `PublishingToVerifier` is neither
returned by `GetActive` nor visited by `ActiveIterator`, so the five
listed states are not all reported active. -/
theorem c1_counterexample_publishing_not_active :
    pvFsm ∈ pvManager.shardStatesList ∧
    pvManager.shardStates.lookup "s1" = some pvFsm ∧
    pvFsm.currentState = .shardPublishingToVerifier ∧
    (getActive pvManager).2 = [] ∧
    activeIteratorVisits pvManager = [] := by
  refine ⟨List.mem_singleton.mpr rfl, rfl, rfl, ?_, ?_⟩ <;>
    simp [activeIteratorVisits, getActive, cleanupCompleted, cleanupLoop, pvManager, pvFsm]

/-- C1 (amended): the FSMs the manager reports active (returned by
`GetActive` and visited, via their capacity items, by `ActiveIterator`)
are exactly the live FSMs in the two states Bidding and Running. -/
theorem c1_amended_active_is_bidding_or_running (m : ManagerState) (i : ManagedFsm) :
    (i ∈ (getActive m).2 ↔
      i ∈ (cleanupCompleted m).shardStatesList ∧
        (i.currentState = .shardBidding ∨ i.currentState = .shardRunning)) ∧
    activeIteratorVisits m = ((getActive m).2).map (fun j => j.capacity) := by
  refine ⟨?_, rfl⟩
  simp [getActive, List.mem_filter]

end Bacalhau
